import Mathlib

/-!
Verification of parallel-ssh (single-host client slice).

The only Python source file shipped under the repository slice is
`pssh/output.py`, which defines `HostOutput`, a `dict` subclass with
`__slots__` for eight named attributes kept in sync with the dict entries.
The `SSHClient` / interactive-shell behaviour is pinned by the repository's
test suite (`tests/ssh/test_single_client.py`) and by the design document,
so the client side is modelled from the spec below, with test-pinned
behaviour noted where the test fixes a point the spec leaves open or
contradicts.
-/

set_option autoImplicit false

namespace Pssh

/-- The eight slot names of `HostOutput.__slots__` in `pssh/output.py`:
`('host', 'cmd', 'channel', 'stdout', 'stderr', 'stdin', 'exit_code', 'exception')`. -/
inductive Slot where
  | host
  | cmd
  | channel
  | stdout
  | stderr
  | stdin
  | exit_code
  | exception
deriving DecidableEq

/-- The attribute-name string of each slot, as written in `__slots__`. -/
def Slot.name : Slot → String
  | .host => "host"
  | .cmd => "cmd"
  | .channel => "channel"
  | .stdout => "stdout"
  | .stderr => "stderr"
  | .stdin => "stdin"
  | .exit_code => "exit_code"
  | .exception => "exception"

/-- Resolving an attribute-name string against `__slots__`: `object.__setattr__`
(and attribute reads) succeed exactly for these eight names, since the class
declares `__slots__` and hence has no instance `__dict__`. -/
def Slot.ofString (n : String) : Option Slot :=
  if n = "host" then some .host
  else if n = "cmd" then some .cmd
  else if n = "channel" then some .channel
  else if n = "stdout" then some .stdout
  else if n = "stderr" then some .stderr
  else if n = "stdin" then some .stdin
  else if n = "exit_code" then some .exit_code
  else if n = "exception" then some .exception
  else none

/-- All eight slots, in `__slots__` order. -/
def allSlots : List Slot :=
  [.host, .cmd, .channel, .stdout, .stderr, .stdin, .exit_code, .exception]

/-- Embedding of `pssh/output.py`'s `class HostOutput(dict)`: the eight slot
attributes, plus the inherited dict's entries modelled as an insertion-ordered
association list (one entry per key, as in a Python dict). The value type is a
parameter: the Python fields are dynamically typed. -/
structure HostOutput (α : Type) where
  host : α
  cmd : α
  channel : α
  stdout : α
  stderr : α
  stdin : α
  exit_code : α
  exception : α
  entries : List (String × α)
deriving DecidableEq

variable {α : Type}

/-- Attribute read of a slot (field access on the Python object). -/
def HostOutput.get (h : HostOutput α) : Slot → α
  | .host => h.host
  | .cmd => h.cmd
  | .channel => h.channel
  | .stdout => h.stdout
  | .stderr => h.stderr
  | .stdin => h.stdin
  | .exit_code => h.exit_code
  | .exception => h.exception

/-- Python `object.__setattr__` on a resolved slot: only the attribute changes. -/
def HostOutput.setSlot (h : HostOutput α) : Slot → α → HostOutput α
  | .host, v => { h with host := v }
  | .cmd, v => { h with cmd := v }
  | .channel, v => { h with channel := v }
  | .stdout, v => { h with stdout := v }
  | .stderr, v => { h with stderr := v }
  | .stdin, v => { h with stdin := v }
  | .exit_code, v => { h with exit_code := v }
  | .exception, v => { h with exception := v }

/-- Python `dict.__setitem__`: replace the entry for the key if present, else append
(Python dicts keep insertion order). -/
def setEntry : List (String × α) → String → α → List (String × α)
  | [], k, v => [(k, v)]
  | p :: rest, k, v => if p.1 = k then (k, v) :: rest else p :: setEntry rest k v

/-- Dict lookup `self[k]`: `some` the stored value, `none` for `KeyError`. -/
def getEntry : List (String × α) → String → Option α
  | [], _ => none
  | p :: rest, k => if p.1 = k then some p.2 else getEntry rest k

/-- Python attribute read `getattr(h, n)`: `none` models `AttributeError`
(with `__slots__` only the eight declared names resolve). -/
def HostOutput.getattr (h : HostOutput α) (n : String) : Option α :=
  (Slot.ofString n).map h.get

/-- Dict lookup `h[n]`. -/
def HostOutput.getitem (h : HostOutput α) (n : String) : Option α :=
  getEntry h.entries n

/-- Embedding of `HostOutput.__init__`: `dict.__init__` seeds the eight entries in
`__slots__` order, then each attribute is assigned through `__setattr__`,
which rewrites the same dict entries with the same values; the final state
is the one built here. (The source assigns `exception` before `exit_code`,
which permutes only the identical rewrites, not the seeded entries.) -/
def HostOutput.init (host cmd channel stdout stderr stdin : α)
    (exit_code exception : α) : HostOutput α :=
  { host := host, cmd := cmd, channel := channel, stdout := stdout,
    stderr := stderr, stdin := stdin, exit_code := exit_code,
    exception := exception,
    entries := [("host", host), ("cmd", cmd), ("channel", channel),
                ("stdout", stdout), ("stderr", stderr), ("stdin", stdin),
                ("exit_code", exit_code), ("exception", exception)] }

/-- Embedding of `HostOutput.__setattr__(name, value)`: `object.__setattr__` first (fails
with `AttributeError` for a non-slot name, leaving the dict untouched), then
`dict.__setitem__`. `none` models the raised `AttributeError`. -/
def HostOutput.setattr (h : HostOutput α) (n : String) (v : α) :
    Option (HostOutput α) :=
  match Slot.ofString n with
  | some s => some { h.setSlot s v with entries := setEntry h.entries n v }
  | none => none

/-- The `dict.update(self, update_dict)` half of `HostOutput.update`: every
key/value pair is written into the dict, in the argument's iteration order. -/
def dictUpdate (h : HostOutput α) (items : List (String × α)) : HostOutput α :=
  items.foldl (fun acc p => { acc with entries := setEntry acc.entries p.1 p.2 }) h

/-- The attribute loop of `HostOutput.update`: `object.__setattr__` per key,
in iteration order; a non-slot key raises `AttributeError` there, abandoning
the remaining keys. The Bool records whether the loop raised. -/
def attrLoop (h : HostOutput α) : List (String × α) → HostOutput α × Bool
  | [] => (h, false)
  | p :: rest =>
    match Slot.ofString p.1 with
    | some s => attrLoop (h.setSlot s p.2) rest
    | none => (h, true)

/-- Embedding of `HostOutput.update(update_dict)` from `pssh/output.py`: first
`dict.update(self, update_dict)` applies every entry to the dict, then the
loop assigns attributes with `object.__setattr__`; the Bool records whether
the loop raised `AttributeError` (in which case the dict was still fully
updated but the attributes were not). -/
def HostOutput.update (h : HostOutput α) (items : List (String × α)) :
    HostOutput α × Bool :=
  attrLoop (dictUpdate h items) items

/-- Attribute access and mapping access agree on the eight slot fields. -/
def Consistent (h : HostOutput α) : Prop :=
  ∀ s ∈ allSlots, h.getattr s.name = h.getitem s.name

instance (h : HostOutput α) [DecidableEq α] : Decidable (Consistent h) :=
  List.decidableBAll _ allSlots

/-! Helper lemmas about slots, the dict entries and the update loops. -/

theorem Slot.ofString_name (s : Slot) : Slot.ofString s.name = some s := by
  cases s <;> decide

theorem Slot.name_ofString {n : String} {s : Slot}
    (h : Slot.ofString n = some s) : n = s.name := by
  unfold Slot.ofString at h
  split_ifs at h
  all_goals injection h with hv
  all_goals subst hv
  all_goals simp_all [Slot.name]

theorem getEntry_setEntry (l : List (String × α)) (k k2 : String) (v : α) :
    getEntry (setEntry l k v) k2 = if k = k2 then some v else getEntry l k2 := by
  induction l with
  | nil => simp [setEntry, getEntry]
  | cons p rest ih =>
    simp only [setEntry]
    by_cases hpk : p.1 = k
    · subst hpk
      simp only [if_pos rfl, getEntry]
      by_cases hk2 : p.1 = k2 <;> simp [hk2, getEntry]
    · simp only [if_neg hpk, getEntry]
      by_cases hk2 : p.1 = k2
      · subst hk2
        have hkp : ¬ k = p.1 := fun hh => hpk hh.symm
        simp [hkp, getEntry]
      · simp [hk2, ih]

theorem get_setSlot (h : HostOutput α) (s s2 : Slot) (v : α) :
    (h.setSlot s v).get s2 = if s2 = s then v else h.get s2 := by
  cases s <;> cases s2 <;> simp [HostOutput.setSlot, HostOutput.get]

theorem entries_setSlot (h : HostOutput α) (s : Slot) (v : α) :
    (h.setSlot s v).entries = h.entries := by
  cases s <;> rfl

/-- The net effect of a sequence of dict writes on one key. -/
def overrideD (items : List (String × α)) (k : String) (d : Option α) : Option α :=
  items.foldl (fun acc p => if p.1 = k then some p.2 else acc) d

/-- The net effect of a sequence of slot writes on one slot. -/
def overrideA (items : List (String × α)) (s : Slot) (d : α) : α :=
  items.foldl (fun acc p => if Slot.ofString p.1 = some s then p.2 else acc) d

theorem overrideD_cons (p : String × α) (rest : List (String × α)) (k : String)
    (d : Option α) :
    overrideD (p :: rest) k d = overrideD rest k (if p.1 = k then some p.2 else d) :=
  rfl

theorem overrideA_cons (p : String × α) (rest : List (String × α)) (s : Slot)
    (d : α) :
    overrideA (p :: rest) s d
      = overrideA rest s (if Slot.ofString p.1 = some s then p.2 else d) :=
  rfl

theorem dictUpdate_cons (h : HostOutput α) (p : String × α)
    (rest : List (String × α)) :
    dictUpdate h (p :: rest)
      = dictUpdate { h with entries := setEntry h.entries p.1 p.2 } rest :=
  rfl

theorem dictUpdate_getitem (items : List (String × α)) (h : HostOutput α)
    (k : String) :
    (dictUpdate h items).getitem k = overrideD items k (h.getitem k) := by
  induction items generalizing h with
  | nil => rfl
  | cons p rest ih =>
    rw [dictUpdate_cons, overrideD_cons, ih]
    simp only [HostOutput.getitem, getEntry_setEntry]

theorem dictUpdate_get (items : List (String × α)) (h : HostOutput α)
    (s : Slot) : (dictUpdate h items).get s = h.get s := by
  induction items generalizing h with
  | nil => rfl
  | cons p rest ih =>
    rw [dictUpdate_cons, ih]
    cases s <;> rfl

theorem attrLoop_ok (items : List (String × α)) (h : HostOutput α)
    (hk : ∀ p ∈ items, (Slot.ofString p.1).isSome) :
    (attrLoop h items).2 = false ∧
      (∀ s, (attrLoop h items).1.get s = overrideA items s (h.get s)) ∧
      (attrLoop h items).1.entries = h.entries := by
  induction items generalizing h with
  | nil => exact ⟨rfl, fun s => rfl, rfl⟩
  | cons p rest ih =>
    have hp : (Slot.ofString p.1).isSome := hk p (List.mem_cons_self p rest)
    cases hs : Slot.ofString p.1 with
    | none => rw [hs] at hp; cases hp
    | some s0 =>
      have ih1 := ih (h.setSlot s0 p.2)
        (fun q hq => hk q (List.mem_cons_of_mem p hq))
      have hstep : attrLoop h (p :: rest) = attrLoop (h.setSlot s0 p.2) rest := by
        simp [attrLoop, hs]
      refine ⟨by rw [hstep]; exact ih1.1, ?_,
        by rw [hstep, ih1.2.2, entries_setSlot]⟩
      intro s
      rw [hstep, ih1.2.1 s, overrideA_cons, get_setSlot]
      by_cases hss : s = s0
      · subst hss
        rw [if_pos hs, if_pos rfl]
      · have hno : ¬ Slot.ofString p.1 = some s := by
          rw [hs]
          intro hh
          exact hss (Option.some.inj hh).symm
        rw [if_neg hno, if_neg hss]

theorem overrideD_name_eq_overrideA (items : List (String × α)) (s : Slot)
    (d : α) (hk : ∀ p ∈ items, (Slot.ofString p.1).isSome) :
    overrideD items s.name (some d) = some (overrideA items s d) := by
  induction items generalizing d with
  | nil => rfl
  | cons p rest ih =>
    have hiff : (p.1 = s.name) ↔ (Slot.ofString p.1 = some s) := by
      constructor
      · intro hh
        rw [hh, Slot.ofString_name]
      · intro hh
        exact Slot.name_ofString hh
    rw [overrideD_cons, overrideA_cons]
    by_cases hps : p.1 = s.name
    · rw [if_pos hps, if_pos (hiff.mp hps)]
      exact ih p.2 (fun q hq => hk q (List.mem_cons_of_mem p hq))
    · rw [if_neg hps, if_neg (fun hh => hps (hiff.mpr hh))]
      exact ih d (fun q hq => hk q (List.mem_cons_of_mem p hq))

theorem Slot.name_inj {s s2 : Slot} (h : s.name = s2.name) : s = s2 := by
  cases s <;> cases s2 <;> simp_all [Slot.name]

theorem mem_allSlots (s : Slot) : s ∈ allSlots := by
  cases s <;> simp [allSlots]

theorem getattr_name (h : HostOutput α) (s : Slot) :
    h.getattr s.name = some (h.get s) := by
  rw [HostOutput.getattr, Slot.ofString_name]
  rfl

theorem get_entries_update (h : HostOutput α) (e : List (String × α)) (s : Slot) :
    ({ h with entries := e } : HostOutput α).get s = h.get s := by
  cases s <;> rfl

theorem consistent_init (a b c d e f g j : α) :
    Consistent (HostOutput.init a b c d e f g j) := by
  intro s hs
  clear hs
  cases s <;>
    simp [HostOutput.init, HostOutput.getattr, HostOutput.getitem,
      Slot.ofString, Slot.name, HostOutput.get, getEntry]

theorem consistent_setattr (h : HostOutput α) (hc : Consistent h)
    (n : String) (v : α) (h2 : HostOutput α) (heq : h.setattr n v = some h2) :
    Consistent h2 := by
  unfold HostOutput.setattr at heq
  cases hofs : Slot.ofString n with
  | none => rw [hofs] at heq; cases heq
  | some s =>
    rw [hofs] at heq
    injection heq with heq
    subst heq
    intro s2 hs2
    rw [getattr_name, HostOutput.getitem]
    have hname : n = s.name := Slot.name_ofString hofs
    rw [get_entries_update, get_setSlot, getEntry_setEntry]
    by_cases hss : s2 = s
    · subst hss
      rw [if_pos rfl, if_pos hname]
    · have hn2 : ¬ n = s2.name := by
        intro hh
        exact hss (Slot.name_inj (hname.symm.trans hh)).symm
      rw [if_neg hss, if_neg hn2]
      have := hc s2 (mem_allSlots s2)
      rw [getattr_name, HostOutput.getitem] at this
      exact this

theorem consistent_update (h : HostOutput α) (hc : Consistent h)
    (items : List (String × α))
    (hk : ∀ p ∈ items, (Slot.ofString p.1).isSome) :
    (h.update items).2 = false ∧ Consistent (h.update items).1 := by
  have hal := attrLoop_ok items (dictUpdate h items) hk
  refine ⟨hal.1, ?_⟩
  intro s2 hs2
  rw [HostOutput.update, getattr_name, HostOutput.getitem]
  rw [hal.2.1 s2, dictUpdate_get, hal.2.2]
  have hd := dictUpdate_getitem items h s2.name
  rw [HostOutput.getitem] at hd
  rw [hd]
  have hcs := hc s2 (mem_allSlots s2)
  rw [getattr_name] at hcs
  rw [← hcs]
  exact (overrideD_name_eq_overrideA items s2 (h.get s2) hk).symm

/-- Claim C10 counterexample: the claim says attribute access and mapping
access on a `HostOutput` agree on the eight fields after any `update` call.
They do not: `update` writes every key into the dict first and only then
assigns attributes one key at a time, so an update dict holding a non-slot
key (here `"bogus"`, iterated before `"exit_code"`) raises `AttributeError`
after the dict half already ran — leaving `h["exit_code"] == 5` while the
`exit_code` attribute still reads `6`. -/
theorem C10_counterexample :
    (((HostOutput.init (α := Nat) 0 1 2 3 4 5 6 7).update
        [("bogus", 9), ("exit_code", 5)]).1.getattr "exit_code" = some 6)
    ∧ (((HostOutput.init (α := Nat) 0 1 2 3 4 5 6 7).update
        [("bogus", 9), ("exit_code", 5)]).1.getitem "exit_code" = some 5)
    ∧ ¬ (((HostOutput.init (α := Nat) 0 1 2 3 4 5 6 7).update
        [("bogus", 9), ("exit_code", 5)]).1.getattr "exit_code"
        = ((HostOutput.init (α := Nat) 0 1 2 3 4 5 6 7).update
        [("bogus", 9), ("exit_code", 5)]).1.getitem "exit_code") := by
  decide

/-- Claim C10 (amended): for every `HostOutput` and each of its eight slot
fields, attribute access and mapping access agree after construction, after
any attribute assignment, and after any `update` call all of whose keys name
slot fields (an update with a non-slot key raises `AttributeError` midway and
breaks the agreement, see the counterexample). -/
theorem C10_attr_dict_agree {α : Type} (a b c d e f g j : α)
    (h : HostOutput α) (hc : Consistent h) (n : String) (v : α)
    (items : List (String × α))
    (hk : ∀ p ∈ items, (Slot.ofString p.1).isSome) :
    Consistent (HostOutput.init a b c d e f g j)
    ∧ (∀ h2, h.setattr n v = some h2 → Consistent h2)
    ∧ ((h.update items).2 = false ∧ Consistent (h.update items).1) :=
  ⟨consistent_init a b c d e f g j,
   fun h2 heq => consistent_setattr h hc n v h2 heq,
   consistent_update h hc items hk⟩

/-- Claim C10 witness: the amended theorem applied to a concrete
`HostOutput` over `Nat`, a concrete attribute assignment and a concrete
all-slot-keys update. -/
theorem C10_attr_dict_agree_witness :
    Consistent (HostOutput.init (α := Nat) 20 21 22 23 24 25 26 27)
    ∧ (∀ p ∈ [(("exit_code", 9) : String × Nat)], (Slot.ofString p.1).isSome)
    ∧ (Consistent (HostOutput.init (α := Nat) 10 11 12 13 14 15 16 17)
       ∧ (∀ h2, (HostOutput.init (α := Nat) 20 21 22 23 24 25 26 27).setattr
            "stderr" 9 = some h2 → Consistent h2)
       ∧ (((HostOutput.init (α := Nat) 20 21 22 23 24 25 26 27).update
            [("exit_code", 9)]).2 = false
          ∧ Consistent ((HostOutput.init (α := Nat) 20 21 22 23 24 25
              26 27).update [("exit_code", 9)]).1)) :=
  ⟨by decide, by decide,
   C10_attr_dict_agree 10 11 12 13 14 15 16 17
     (HostOutput.init 20 21 22 23 24 25 26 27) (by decide) "stderr" 9
     [("exit_code", 9)] (by decide)⟩

/-!
The Session Client layer. The `SSHClient` implementation is not part of the
shipped slice (only its tests are), so the definitions below are modelled
from the spec (sections 3-5 of the design document), with behaviour the test
suite pins noted where relevant. Time is a cooperative clock in whole
seconds; the remote side of a dispatched command is a `RemoteProc` giving
how long it runs, its exit status, and the lines it writes to each stream.
-/

/-- Modelled from the spec: the shell commands exercised by the spec's
scenarios, as a small AST — `echo` to stdout or (via `>&2`) stderr, `sleep`,
`exit`, and `;`-sequencing. `exit` is used only in final position, as in
every scenario of the spec. -/
inductive Cmd where
  | echo (line : String) (toStderr : Bool)
  | sleepFor (n : Nat)
  | exitWith (code : Int)
  | andThen (a b : Cmd)
deriving DecidableEq

/-- Modelled from the spec: what the remote process of one dispatched
command does — how long it runs, the exit status it terminates with, and
the lines it writes to stdout and stderr (section 2 data flow). -/
structure RemoteProc where
  duration : Nat
  exitStatus : Int
  outLines : List String
  errLines : List String
deriving DecidableEq

/-- Modelled from the spec: the remote shell's semantics for the command
forms above. A sequence runs both parts, takes the last part's exit status,
and concatenates the streams. -/
def interp : Cmd → RemoteProc
  | .echo s false => { duration := 0, exitStatus := 0, outLines := [s], errLines := [] }
  | .echo s true => { duration := 0, exitStatus := 0, outLines := [], errLines := [s] }
  | .sleepFor n => { duration := n, exitStatus := 0, outLines := [], errLines := [] }
  | .exitWith c => { duration := 0, exitStatus := c, outLines := [], errLines := [] }
  | .andThen a b =>
    { duration := (interp a).duration + (interp b).duration,
      exitStatus := (interp b).exitStatus,
      outLines := (interp a).outLines ++ (interp b).outLines,
      errLines := (interp a).errLines ++ (interp b).errLines }

/-- Modelled from the spec: one protocol channel (section 3) — the process
it is executing, the clock time the execute handshake completed, the shared
forward read cursors of the two streams, and whether it has been closed. -/
structure ChannelSt where
  proc : RemoteProc
  started : Nat
  posOut : Nat
  posErr : Nat
  closed : Bool
deriving DecidableEq

/-- Modelled from the spec: one Session Client (section 3) — its host, the
cooperative clock, the channels it opened (channel id = list index), how
long its channel-open/execute handshake takes, and whether its socket has
been closed. -/
structure ClientState where
  host : String
  clock : Nat
  channels : List ChannelSt
  openSessionDuration : Nat
  sockClosed : Bool
deriving DecidableEq

/-- The dynamically-typed values held in a `HostOutput`'s fields on the
client side: Python `None`, integers, strings, a channel reference, a lazy
stream cursor bound to a channel (stderr side flagged), a materialised line
list, and the submitted command. -/
inductive Value where
  | vnone
  | vint (n : Int)
  | vstr (s : String)
  | vchan (cid : Nat)
  | vstream (cid : Nat) (errSide : Bool)
  | vlines (ls : List String)
  | vcmd (c : Cmd)
deriving DecidableEq

/-- The error taxonomy the claims need (spec section 7): `Timeout` for an
exceeded deadline, `ValueError` for programmer misuse. -/
inductive PsshError where
  | timeout
  | valueError
deriving DecidableEq

/-- Modelled from the spec: the successful part of `run_command` — open a
channel, issue execute (taking `openSessionDuration` of clock time), and
return immediately a `HostOutput` whose streams are cursors bound to the
new channel and whose `exit_code`/`exception` are `None` (section 4.3). -/
def execCommand (st : ClientState) (c : Cmd) : ClientState × HostOutput Value :=
  let cid := st.channels.length
  let ch : ChannelSt :=
    { proc := interp c, started := st.clock + st.openSessionDuration,
      posOut := 0, posErr := 0, closed := false }
  ({ st with
     clock := st.clock + st.openSessionDuration,
     channels := st.channels ++ [ch] },
   HostOutput.init (.vstr st.host) (.vcmd c) (.vchan cid)
     (.vstream cid false) (.vstream cid true) (.vchan cid) .vnone .vnone)

/-- Modelled from the spec: `run_command(cmd, timeout)` — only the initial
channel-open/execute handshake may block; if it exceeds `timeout` the call
fails with `Timeout` before any `HostOutput` exists (section 4.3). -/
def run_command (st : ClientState) (c : Cmd) (timeout : Option Nat) :
    Except PsshError (ClientState × HostOutput Value) :=
  match timeout with
  | some t =>
    if t < st.openSessionDuration then .error .timeout
    else .ok (execCommand st c)
  | none => .ok (execCommand st c)

/-- Modelled from the spec: `finished(channel)` — a non-blocking EOF check.
For a `None` channel the repository's own test (`test_finished_error`,
`assertIsNone(self.client.finished(None))`) pins the behaviour: the call
returns `None` instead of raising, diverging from the spec sentence that
promises `ValueError`; the model follows the code as tested. -/
def finished (st : ClientState) (ch : Option Nat) :
    Except PsshError (Option Bool) :=
  match ch with
  | none => .ok none
  | some cid =>
    .ok ((st.channels[cid]?).map
      (fun c => decide (c.started + c.proc.duration ≤ st.clock)))

/-- The argument a caller may pass to `wait_finished` (Python is
dynamically typed): `None`, a bare channel, or a `HostOutput`. -/
inductive WaitArg where
  | nullArg
  | bareChannel (cid : Nat)
  | hostOut (h : HostOutput Value)
deriving DecidableEq

/-- The outcome of a `wait_finished` call, keeping the client state reached
by the call even when it raises (a timeout consumes its deadline but leaves
channel and session usable). -/
inductive WaitResult where
  | ok (st : ClientState) (h : HostOutput Value)
  | err (st : ClientState) (e : PsshError)
deriving DecidableEq

/-- Modelled from the spec: `wait_finished(host_output, timeout)` — rejects
`None` and bare channels with `ValueError`; otherwise cooperatively waits
for the channel tied to the `HostOutput` to reach EOF, bounded by `timeout`
if given. On timeout the clock has advanced by the deadline but the channel
is untouched and a later call may keep waiting; on success the exit status
is retrieved and written into the `HostOutput`'s `exit_code` through
attribute assignment (sections 4.3 and 5). -/
def wait_finished (st : ClientState) (arg : WaitArg) (timeout : Option Nat) :
    WaitResult :=
  match arg with
  | .nullArg => .err st .valueError
  | .bareChannel _ => .err st .valueError
  | .hostOut h =>
    match h.getattr "channel" with
    | some (.vchan cid) =>
      match st.channels[cid]? with
      | none => .err st .valueError
      | some c =>
        let finishAt := c.started + c.proc.duration
        match timeout with
        | some t =>
          if st.clock + t < finishAt then
            .err { st with clock := st.clock + t } .timeout
          else
            .ok { st with clock := max st.clock finishAt }
              ((h.setattr "exit_code" (.vint c.proc.exitStatus)).getD h)
        | none =>
          .ok { st with clock := max st.clock finishAt }
            ((h.setattr "exit_code" (.vint c.proc.exitStatus)).getD h)
    | _ => .err st .valueError

/-- Modelled from the spec: exhausting one of the `HostOutput`'s lazy line
streams (`list(host_out.stdout)` or `list(host_out.stderr)`) — blocks
cooperatively until the channel reaches EOF, yields the lines the remote
wrote to that stream past the shared cursor, and advances the cursor
(sections 3 and 4.2). -/
def drainStream (st : ClientState) (h : HostOutput Value) (errSide : Bool) :
    Option (ClientState × List String) :=
  match h.getattr (if errSide then "stderr" else "stdout") with
  | some (.vstream cid side) =>
    match st.channels[cid]? with
    | some c =>
      let lines := if side then c.proc.errLines.drop c.posErr
                   else c.proc.outLines.drop c.posOut
      let c1 := if side then { c with posErr := c.proc.errLines.length }
                else { c with posOut := c.proc.outLines.length }
      some ({ st with
              clock := max st.clock (c.started + c.proc.duration),
              channels := st.channels.set cid c1 }, lines)
    | none => none
  | _ => none

/-- Modelled from the spec: releasing a Session Client (`del client` or
scope exit) closes its connection synchronously — the socket and every
channel it owns are closed before the release returns (section 4.3
Teardown). -/
def releaseClient (st : ClientState) : ClientState :=
  { st with
    sockClosed := true,
    channels := st.channels.map (fun c => { c with closed := true }) }

/-- A fresh Session Client for `host`: clock zero, no channels yet, an
instantaneous handshake, socket open. -/
def newClient (host : String) : ClientState :=
  { host := host, clock := 0, channels := [], openSessionDuration := 0,
    sockClosed := false }

/-- Modelled from the spec: the interactive shell's state (sections 3 and
4.4) — one long-lived channel whose `output` accumulates lines and exit
codes across every command run on it, the exit status of the most recent
command, and the closed flag. -/
structure ShellState where
  clock : Nat
  outAcc : List String
  errAcc : List String
  lastStatus : Int
  closed : Bool
deriving DecidableEq

/-- Modelled from the spec: `open_shell()` — a fresh shell on the client's
connection, with empty accumulated output (section 4.3). -/
def open_shell (st : ClientState) : ShellState :=
  { clock := st.clock, outAcc := [], errAcc := [], lastStatus := 0,
    closed := false }

/-- Modelled from the spec: `shell.run(cmd)` — queues the command onto the
shell's one channel, appends its output to the accumulated streams (never
resetting them) and records its exit status as the most recent one; running
on a closed shell is an invalid-state error (section 4.4). -/
def ShellState.run (sh : ShellState) (c : Cmd) : Except PsshError ShellState :=
  if sh.closed then .error .valueError
  else .ok { sh with
    clock := sh.clock + (interp c).duration,
    outAcc := sh.outAcc ++ (interp c).outLines,
    errAcc := sh.errAcc ++ (interp c).errLines,
    lastStatus := (interp c).exitStatus }

/-- Modelled from the spec: closing the shell (scope exit) — the channel is
closed and the final exit code is fixed to that of the last command run
before close (section 4.4). -/
def ShellState.close (sh : ShellState) : ShellState :=
  { sh with closed := true }

/-- Modelled from the spec: the shell's `output` record — accumulated
stdout/stderr lines of the whole session; `exit_code` is the last observed
exit status once the shell is closed, `None` before (sections 3 and 4.4). -/
def ShellState.output (sh : ShellState) : HostOutput Value :=
  HostOutput.init .vnone .vnone .vnone (.vlines sh.outAcc) (.vlines sh.errAcc)
    .vnone (if sh.closed then .vint sh.lastStatus else .vnone) .vnone

/-- Modelled from the spec: the process-wide protocol-library state shared
by every Session Client in the process (sections 5 and 9). Its contents are
opaque; what matters is whether a client's lifecycle deposits per-session
residue into it. -/
structure LibState where
  residue : List String
deriving DecidableEq

/-- Modelled from the spec: tearing down a released client's session
touches only that client's own isolated session context (the section 9
strategy), so the shared library state is returned without per-session
residue. -/
def shutdown (_st : ClientState) (lib : LibState) : LibState :=
  lib

/-- Modelled from the spec: one complete one-shot client lifecycle against
`host` — create a client with its own isolated session context, run `c`,
exhaust stdout, release the client (the test's `scope_killer` body). -/
def oneShot (lib : LibState) (host : String) (c : Cmd) :
    Option (List String) × LibState :=
  match run_command (newClient host) c none with
  | .error _ => (none, lib)
  | .ok (st1, h) =>
    match drainStream st1 h false with
    | some (st2, lines) => (some lines, shutdown (releaseClient st2) lib)
    | none => (none, lib)

/-- Modelled from the spec: `n` sequential independent one-shot clients
against the same host, each created after the previous one was released,
threading the shared library state through. -/
def runSeq (lib : LibState) (host : String) (c : Cmd) :
    Nat → List (Option (List String))
  | 0 => []
  | n + 1 =>
    ((oneShot lib host c).1) :: runSeq (oneShot lib host c).2 host c n

/-! Helper lemmas for the client layer. -/

theorem getElem?_append_length (l : List α) (a : α) :
    (l ++ [a])[l.length]? = some a := by
  induction l with
  | nil => rfl
  | cons x xs ih => simp

theorem setattr_slot_some (h : HostOutput α) (s : Slot) (v : α) :
    h.setattr s.name v
      = some { h.setSlot s v with entries := setEntry h.entries s.name v } := by
  rw [HostOutput.setattr, Slot.ofString_name]

theorem getattr_setattr_self (h : HostOutput α) (s : Slot) (v : α) :
    ((h.setattr s.name v).getD h).getattr s.name = some v := by
  rw [setattr_slot_some, Option.getD_some, getattr_name, get_entries_update,
    get_setSlot, if_pos rfl]

theorem getattr_setattr_other (h : HostOutput α) (s s2 : Slot) (v : α)
    (hne : s2 ≠ s) :
    ((h.setattr s.name v).getD h).getattr s2.name = h.getattr s2.name := by
  rw [setattr_slot_some, Option.getD_some, getattr_name, getattr_name,
    get_entries_update, get_setSlot, if_neg hne]

theorem execCommand_eq (st : ClientState) (c : Cmd) :
    execCommand st c =
      ({ st with
         clock := st.clock + st.openSessionDuration,
         channels := st.channels ++
           [{ proc := interp c, started := st.clock + st.openSessionDuration,
              posOut := 0, posErr := 0, closed := false }] },
       HostOutput.init (.vstr st.host) (.vcmd c)
         (.vchan st.channels.length) (.vstream st.channels.length false)
         (.vstream st.channels.length true) (.vchan st.channels.length)
         .vnone .vnone) :=
  rfl

/-- A concrete client whose channel-open/execute handshake takes 2 seconds,
as in `test_open_session_timeout` where `open_session` sleeps 2. -/
def slowHandshakeClient : ClientState :=
  { host := "127.0.0.1", clock := 0, channels := [], openSessionDuration := 2,
    sockClosed := false }

/-- Claim C8: for every call to `run_command` with a timeout, if the initial
channel-open/execute handshake itself exceeds the timeout, the call fails
with `Timeout` before returning any `HostOutput`. -/
theorem C8_handshake_timeout (st : ClientState) (c : Cmd) (t : Nat)
    (hslow : t < st.openSessionDuration) :
    run_command st c (some t) = .error .timeout := by
  simp [run_command, hslow]

/-- Claim C8 witness: a client whose handshake takes 2 seconds and a
1-second timeout, as in the repository's `test_open_session_timeout`. -/
theorem C8_handshake_timeout_witness :
    1 < slowHandshakeClient.openSessionDuration
    ∧ run_command slowHandshakeClient (.echo "hello" false) (some 1)
        = .error .timeout :=
  ⟨by decide,
   C8_handshake_timeout slowHandshakeClient (.echo "hello" false) 1 (by decide)⟩

/-- Claim C2 counterexample: the claim says `finished(None)` always fails
with `ValueError` and never returns a value, but the repository's own test
(`test_finished_error`: `assertIsNone(self.client.finished(None))`) pins the
opposite behaviour — at a concrete client the call returns Python `None`
and raises nothing. -/
theorem C2_counterexample :
    finished (newClient "127.0.0.1") Option.none = .ok Option.none :=
  rfl

/-- Claim C2 (amended): calling `finished` with a `None` channel returns
`None` rather than raising; it is `wait_finished` that rejects a `None`
argument with `ValueError`. -/
theorem C2_finished_none (st : ClientState) (t : Option Nat) :
    finished st Option.none = .ok Option.none
    ∧ wait_finished st .nullArg t = .err st .valueError :=
  ⟨rfl, rfl⟩

/-- Claim C7: when a Session Client is released, its connection is closed
synchronously — in the state returned by the release, the socket is closed
and so is every channel the client owned, with no reliance on delayed
finalization. -/
theorem C7_release_closes_socket (st : ClientState) :
    (releaseClient st).sockClosed = true
    ∧ ∀ c ∈ (releaseClient st).channels, c.closed = true := by
  refine ⟨rfl, ?_⟩
  intro c hc
  simp only [releaseClient, List.mem_map] at hc
  obtain ⟨c0, hc0, rfl⟩ := hc
  rfl

theorem getattr_execCommand_channel (st : ClientState) (c : Cmd) :
    (execCommand st c).2.getattr "channel"
      = some (.vchan st.channels.length) := by
  rfl

theorem getattr_execCommand_exit_code (st : ClientState) (c : Cmd) :
    (execCommand st c).2.getattr "exit_code" = some .vnone := by
  rfl

theorem getattr_execCommand_stdout (st : ClientState) (c : Cmd) :
    (execCommand st c).2.getattr "stdout"
      = some (.vstream st.channels.length false) := by
  rfl

theorem getattr_execCommand_stderr (st : ClientState) (c : Cmd) :
    (execCommand st c).2.getattr "stderr"
      = some (.vstream st.channels.length true) := by
  rfl

theorem execCommand_lookup (st : ClientState) (c : Cmd) :
    (execCommand st c).1.channels[st.channels.length]?
      = some { proc := interp c, started := st.clock + st.openSessionDuration,
               posOut := 0, posErr := 0, closed := false } := by
  rw [execCommand_eq]
  exact getElem?_append_length _ _

theorem execCommand_clock (st : ClientState) (c : Cmd) :
    (execCommand st c).1.clock = st.clock + st.openSessionDuration :=
  rfl

theorem wait_finished_hostOut_none (st2 : ClientState) (h : HostOutput Value)
    (cid : Nat) (ch : ChannelSt)
    (hch : h.getattr "channel" = some (.vchan cid))
    (hlk : st2.channels[cid]? = some ch) :
    wait_finished st2 (.hostOut h) Option.none
      = .ok { st2 with clock := max st2.clock (ch.started + ch.proc.duration) }
          ((h.setattr "exit_code" (.vint ch.proc.exitStatus)).getD h) := by
  simp [wait_finished, hch, hlk]

theorem wait_finished_hostOut_timeout (st2 : ClientState)
    (h : HostOutput Value) (cid : Nat) (ch : ChannelSt) (t : Nat)
    (hch : h.getattr "channel" = some (.vchan cid))
    (hlk : st2.channels[cid]? = some ch)
    (hslow : st2.clock + t < ch.started + ch.proc.duration) :
    wait_finished st2 (.hostOut h) (some t)
      = .err { st2 with clock := st2.clock + t } .timeout := by
  simp [wait_finished, hch, hlk, hslow]

/-- Concrete client for the witness instances. -/
def clientW : ClientState := newClient "127.0.0.1"

/-- The concrete `sleep 2; exit 2` of `test_long_running_cmd` and the
spec's timeout scenario. -/
def cmdSleepExit : Cmd := .andThen (.sleepFor 2) (.exitWith 2)

/-- The state/output pair returned by dispatching `sleep 2; exit 2` on the
concrete client. -/
def runW : ClientState × HostOutput Value := execCommand clientW cmdSleepExit

/-- Claim C3: for every Session Client, calling `wait_finished` with `None`
or with a bare channel object instead of a HostOutput fails with
`ValueError`, while calling it with the HostOutput returned by
`run_command` succeeds. -/
theorem C3_wait_finished_argument (st : ClientState) (c : Cmd) (cid : Nat)
    (t : Option Nat) (st1 : ClientState) (h : HostOutput Value)
    (hrun : run_command st c Option.none = .ok (st1, h)) :
    wait_finished st1 .nullArg t = .err st1 .valueError
    ∧ wait_finished st1 (.bareChannel cid) t = .err st1 .valueError
    ∧ ∃ st2 h2, wait_finished st1 (.hostOut h) Option.none = .ok st2 h2 := by
  have hexec : execCommand st c = (st1, h) := by
    simpa [run_command] using hrun
  have hch := getattr_execCommand_channel st c
  have hlk := execCommand_lookup st c
  rw [hexec] at hch hlk
  exact ⟨rfl, rfl, _, _,
    wait_finished_hostOut_none st1 h st.channels.length _ hch hlk⟩

/-- Claim C3 witness: the concrete client running `sleep 2; exit 2`, with a
bare channel id 0 and no timeout. -/
theorem C3_wait_finished_argument_witness :
    run_command clientW cmdSleepExit Option.none = .ok (runW.1, runW.2)
    ∧ (wait_finished runW.1 .nullArg Option.none = .err runW.1 .valueError
       ∧ wait_finished runW.1 (.bareChannel 0) Option.none
           = .err runW.1 .valueError
       ∧ ∃ st2 h2, wait_finished runW.1 (.hostOut runW.2) Option.none
           = .ok st2 h2) :=
  ⟨rfl, C3_wait_finished_argument clientW cmdSleepExit 0 Option.none
    runW.1 runW.2 rfl⟩

/-- Claim C4: for every HostOutput returned by `run_command`, `exit_code`
is `None` until the remote terminates and the status is observed through
`wait_finished`; the observation sets it to the real exit status, and a
further `wait_finished` leaves the value unchanged, so every subsequent
read returns the same integer. -/
theorem C4_exit_code_set_once (st : ClientState) (c : Cmd)
    (st1 : ClientState) (h : HostOutput Value)
    (hrun : run_command st c Option.none = .ok (st1, h)) :
    h.getattr "exit_code" = some .vnone
    ∧ ∃ st2 h2, wait_finished st1 (.hostOut h) Option.none = .ok st2 h2
        ∧ h2.getattr "exit_code" = some (.vint (interp c).exitStatus)
        ∧ ∃ st3 h3, wait_finished st2 (.hostOut h2) Option.none = .ok st3 h3
            ∧ h3.getattr "exit_code" = h2.getattr "exit_code" := by
  have hexec : execCommand st c = (st1, h) := by
    simpa [run_command] using hrun
  have hch := getattr_execCommand_channel st c
  have hlk := execCommand_lookup st c
  have hec := getattr_execCommand_exit_code st c
  rw [hexec] at hch hlk hec
  refine ⟨hec, _, _,
    wait_finished_hostOut_none st1 h st.channels.length _ hch hlk,
    getattr_setattr_self h .exit_code _, ?_⟩
  have hch2 : ((h.setattr "exit_code"
      (Value.vint (interp c).exitStatus)).getD h).getattr "channel"
      = some (Value.vchan st.channels.length) :=
    (getattr_setattr_other h .exit_code .channel _
      (by intro hh; cases hh)).trans hch
  refine ⟨_, _,
    wait_finished_hostOut_none _ _ st.channels.length _ hch2 hlk, ?_⟩
  exact (getattr_setattr_self _ .exit_code _).trans
    (getattr_setattr_self h .exit_code _).symm

/-- Claim C4 witness: the concrete client running `sleep 2; exit 2`. -/
theorem C4_exit_code_set_once_witness :
    run_command clientW cmdSleepExit Option.none = .ok (runW.1, runW.2)
    ∧ (runW.2.getattr "exit_code" = some .vnone
       ∧ ∃ st2 h2, wait_finished runW.1 (.hostOut runW.2) Option.none
             = .ok st2 h2
           ∧ h2.getattr "exit_code"
               = some (.vint (interp cmdSleepExit).exitStatus)
           ∧ ∃ st3 h3, wait_finished st2 (.hostOut h2) Option.none
                 = .ok st3 h3
               ∧ h3.getattr "exit_code" = h2.getattr "exit_code") :=
  ⟨rfl, C4_exit_code_set_once clientW cmdSleepExit runW.1 runW.2 rfl⟩

/-- Claim C1: for every HostOutput whose remote process runs longer than
the timeout passed to `wait_finished`, the call fails with `Timeout`; the
state after the failed call differs from the pre-call state only in the
clock (the channel is left open and un-corrupted), and a subsequent
`wait_finished` without timeout on the same HostOutput succeeds and sets
`exit_code` to the real exit status. -/
theorem C1_wait_timeout_then_succeed (st : ClientState) (c : Cmd) (t : Nat)
    (st1 : ClientState) (h : HostOutput Value)
    (hrun : run_command st c Option.none = .ok (st1, h))
    (hslow : t < (interp c).duration) :
    wait_finished st1 (.hostOut h) (some t)
        = .err { st1 with clock := st1.clock + t } .timeout
    ∧ ({ st1 with clock := st1.clock + t } : ClientState).channels
        = st1.channels
    ∧ ∃ st2 h2,
        wait_finished { st1 with clock := st1.clock + t } (.hostOut h)
            Option.none = .ok st2 h2
        ∧ h2.getattr "exit_code" = some (.vint (interp c).exitStatus) := by
  have hexec : execCommand st c = (st1, h) := by
    simpa [run_command] using hrun
  have hch := getattr_execCommand_channel st c
  have hlk := execCommand_lookup st c
  have hclock : st1.clock = st.clock + st.openSessionDuration := by
    have hck := execCommand_clock st c
    rw [hexec] at hck
    exact hck
  rw [hexec] at hch hlk
  refine ⟨?_, rfl, _, _,
    wait_finished_hostOut_none { st1 with clock := st1.clock + t } h
      st.channels.length _ hch hlk,
    getattr_setattr_self h .exit_code _⟩
  refine wait_finished_hostOut_timeout st1 h st.channels.length _ t hch hlk ?_
  show st1.clock + t < st.clock + st.openSessionDuration + (interp c).duration
  omega

/-- Claim C1 witness: `sleep 2; exit 2` with a 1-second timeout on the
concrete client, as in `test_wait_finished_timeout` and
`test_long_running_cmd`. -/
theorem C1_wait_timeout_then_succeed_witness :
    run_command clientW cmdSleepExit Option.none = .ok (runW.1, runW.2)
    ∧ 1 < (interp cmdSleepExit).duration
    ∧ (wait_finished runW.1 (.hostOut runW.2) (some 1)
          = .err { runW.1 with clock := runW.1.clock + 1 } .timeout
       ∧ ({ runW.1 with clock := runW.1.clock + 1 } : ClientState).channels
           = runW.1.channels
       ∧ ∃ st2 h2,
           wait_finished { runW.1 with clock := runW.1.clock + 1 }
               (.hostOut runW.2) Option.none = .ok st2 h2
           ∧ h2.getattr "exit_code"
               = some (.vint (interp cmdSleepExit).exitStatus)) :=
  ⟨rfl, by decide,
   C1_wait_timeout_then_succeed clientW cmdSleepExit 1 runW.1 runW.2 rfl
     (by decide)⟩

/-- The channel freshly opened by `execCommand`. -/
def freshChannel (st : ClientState) (c : Cmd) : ChannelSt :=
  { proc := interp c, started := st.clock + st.openSessionDuration,
    posOut := 0, posErr := 0, closed := false }

/-- Claim C6: for a command that writes only to standard error, the
HostOutput routes output to the correct stream — after `wait_finished`,
exhausting stdout yields no lines and then exhausting stderr yields exactly
the line the remote wrote (`echo "me" >&2` gives stdout `[]` and stderr
`["me"]`). -/
theorem C6_stderr_routing (st : ClientState) (s : String)
    (st1 : ClientState) (h : HostOutput Value)
    (hrun : run_command st (.echo s true) Option.none = .ok (st1, h)) :
    ∃ st2 h2, wait_finished st1 (.hostOut h) Option.none = .ok st2 h2
      ∧ (drainStream st2 h2 false).map (fun r => r.2) = some []
      ∧ ((drainStream st2 h2 false).bind
          (fun r => drainStream r.1 h2 true)).map (fun r => r.2)
            = some [s] := by
  have hexec : execCommand st (.echo s true) = (st1, h) := by
    simpa [run_command] using hrun
  have hch : h.getattr "channel" = some (.vchan st.channels.length) := by
    have hx := getattr_execCommand_channel st (.echo s true)
    rw [hexec] at hx
    exact hx
  have hso : h.getattr "stdout" = some (.vstream st.channels.length false) := by
    have hx := getattr_execCommand_stdout st (.echo s true)
    rw [hexec] at hx
    exact hx
  have hse : h.getattr "stderr" = some (.vstream st.channels.length true) := by
    have hx := getattr_execCommand_stderr st (.echo s true)
    rw [hexec] at hx
    exact hx
  have hlk : st1.channels[st.channels.length]?
      = some (freshChannel st (.echo s true)) := by
    have hx := execCommand_lookup st (.echo s true)
    rw [hexec] at hx
    exact hx
  have hchn : st1.channels = st.channels ++ [freshChannel st (.echo s true)] := by
    have hx := congrArg (fun p => p.1.channels) hexec
    exact hx.symm
  have hlen : st.channels.length < st1.channels.length := by
    rw [hchn]
    simp
  have hso2 : ((h.setattr "exit_code" (Value.vint 0)).getD h).getattr
        "stdout" = some (.vstream st.channels.length false) :=
    (getattr_setattr_other h .exit_code .stdout _
      (by intro hh; cases hh)).trans hso
  have hse2 : ((h.setattr "exit_code" (Value.vint 0)).getD h).getattr
        "stderr" = some (.vstream st.channels.length true) :=
    (getattr_setattr_other h .exit_code .stderr _
      (by intro hh; cases hh)).trans hse
  refine ⟨_, _,
    wait_finished_hostOut_none st1 h st.channels.length
      (freshChannel st (.echo s true)) hch hlk, ?_, ?_⟩
  · simp [drainStream, hso2, hlk, freshChannel, interp]
  · simp [drainStream, hso2, hse2, hlk, freshChannel, interp,
      List.getElem?_set_eq_of_lt, hlen]

/-- The state/output pair returned by dispatching `echo "me" >&2` on the
concrete client. -/
def runE : ClientState × HostOutput Value :=
  execCommand clientW (.echo "me" true)

/-- Claim C6 witness: `echo "me" >&2` on the concrete client, as in
`test_stderr`. -/
theorem C6_stderr_routing_witness :
    run_command clientW (.echo "me" true) Option.none = .ok (runE.1, runE.2)
    ∧ ∃ st2 h2, wait_finished runE.1 (.hostOut runE.2) Option.none
          = .ok st2 h2
        ∧ (drainStream st2 h2 false).map (fun r => r.2) = some []
        ∧ ((drainStream st2 h2 false).bind
            (fun r => drainStream r.1 h2 true)).map (fun r => r.2)
              = some ["me"] :=
  ⟨rfl, C6_stderr_routing clientW "me" runE.1 runE.2 rfl⟩

/-- Claim C5: the interactive shell's output accumulates across sequential
`run` calls instead of being reset per command, and closing the shell fixes
`output.exit_code` to the exit status of the last command run: running
`echo X` then `exit 1` before close yields combined stdout `[X]` and final
exit code 1. -/
theorem C5_shell_accumulates (sh : ShellState) (c : Cmd)
    (hopen : sh.closed = false) (st : ClientState) (x : String) :
    (∃ sh2, sh.run c = .ok sh2
       ∧ sh2.outAcc = sh.outAcc ++ (interp c).outLines
       ∧ sh2.errAcc = sh.errAcc ++ (interp c).errLines
       ∧ sh2.lastStatus = (interp c).exitStatus)
    ∧ ∃ sh1 sh2, (open_shell st).run (.echo x false) = .ok sh1
       ∧ sh1.run (.exitWith 1) = .ok sh2
       ∧ sh2.close.output.getattr "stdout" = some (.vlines [x])
       ∧ sh2.close.output.getattr "exit_code" = some (.vint 1) := by
  constructor
  · have hrun1 : sh.run c = .ok { sh with
        clock := sh.clock + (interp c).duration,
        outAcc := sh.outAcc ++ (interp c).outLines,
        errAcc := sh.errAcc ++ (interp c).errLines,
        lastStatus := (interp c).exitStatus } := by
      rw [ShellState.run, if_neg (by rw [hopen]; exact Bool.false_ne_true)]
    exact ⟨_, hrun1, rfl, rfl, rfl⟩
  · exact ⟨_, _, rfl, rfl, rfl, rfl⟩

/-- Claim C5 witness: a fresh shell on the concrete client, running
`sleep 1` for the accumulation conjunct and `echo "me"` then `exit 1` for
the close scenario. -/
theorem C5_shell_accumulates_witness :
    (open_shell clientW).closed = false
    ∧ ((∃ sh2, (open_shell clientW).run (.sleepFor 1) = .ok sh2
         ∧ sh2.outAcc = (open_shell clientW).outAcc
             ++ (interp (.sleepFor 1)).outLines
         ∧ sh2.errAcc = (open_shell clientW).errAcc
             ++ (interp (.sleepFor 1)).errLines
         ∧ sh2.lastStatus = (interp (.sleepFor 1)).exitStatus)
       ∧ ∃ sh1 sh2, (open_shell clientW).run (.echo "me" false) = .ok sh1
         ∧ sh1.run (.exitWith 1) = .ok sh2
         ∧ sh2.close.output.getattr "stdout" = some (.vlines ["me"])
         ∧ sh2.close.output.getattr "exit_code" = some (.vint 1)) :=
  ⟨rfl, C5_shell_accumulates (open_shell clientW) (.sleepFor 1) rfl
    clientW "me"⟩

theorem oneShot_eq (lib : LibState) (host : String) (c : Cmd) :
    oneShot lib host c = (some (interp c).outLines, lib) := by
  simp [oneShot, run_command, execCommand, newClient, drainStream,
    HostOutput.getattr, Slot.ofString, HostOutput.get, HostOutput.init,
    shutdown]

/-- Claim C9: running independent one-shot Session Clients sequentially
against the same host leaks no per-session state between them — in a run of
`n` clients each created after the previous one was released, every
client's run of the same command yields the expected output, independently
of its position and of previously released sessions, and the shared
library state carries no per-session residue. -/
theorem C9_sequential_isolation (lib : LibState) (host : String) (c : Cmd)
    (n i : Nat) (hi : i < n) :
    (runSeq lib host c n)[i]? = some (some (interp c).outLines) := by
  induction n generalizing lib i with
  | zero => cases hi
  | succ n ih =>
    rw [runSeq]
    cases i with
    | zero => simp [oneShot_eq]
    | succ j =>
      rw [oneShot_eq]
      simp only [List.getElem?_cons_succ]
      exact ih lib j (by omega)

/-- Claim C9 witness: five one-shot clients against the concrete host in
sequence, checking the fifth (i = 4). -/
theorem C9_sequential_isolation_witness :
    4 < 5
    ∧ (runSeq { residue := [] } "127.0.0.1" (.echo "me" false) 5)[4]?
        = some (some (interp (.echo "me" false)).outLines) :=
  ⟨by decide,
   C9_sequential_isolation { residue := [] } "127.0.0.1" (.echo "me" false)
     5 4 (by decide)⟩

end Pssh
